import Mathlib

/-
Verification development for the meetx video-room component
(src/app/components/video-room/video-room.ts).

The component keeps a `participants` map from remote user ids to
`Participant` records (each owning one `RTCPeerConnection` and an
accumulating remote `MediaStream`), drives WebRTC offer/answer/ICE
negotiation through a socket, and fans local-track changes out to every
peer connection.

Shallow embedding conventions:
- The `participants` JS `Map` is an association list `List (String × Participant)`
  with unique keys maintained by `setP`/`delP`.
- The connection layer (`RTCPeerConnection`) is a record of the observable
  negotiation data: the sender list, the committed local/remote descriptions,
  the candidates that were applied, and a closed flag.  Descriptions and
  candidates are opaque blobs modelled as `Nat` payloads; a description also
  carries its `type` field (`offer`/`answer`).
- Asynchronous connection-layer calls are folded to their eventual effect;
  calls that can reject (`setRemoteDescription`, `createAnswer`,
  `setLocalDescription`, `addIceCandidate`, `getUserMedia`) are made fallible
  through an explicit `ConnBehavior` record (for the signal path) or an
  `Option` grant argument (for the media-acquisition paths); the `try/catch`
  in `handleSignal` is modelled by returning a Boolean "error caught and
  logged" flag instead of propagating.
- `Participant.isOfferer` is a ghost field recording the `isOfferer`
  argument that `createPeerConnection` was called with (the spec's session
  role); no operation reads it.
-/

namespace MeetX

/-- Media-track kind, the `kind` of a `MediaStreamTrack` (`audio` / `video`). -/
inductive TrackKind
  | audio
  | video
deriving DecidableEq, Repr

/-- A `MediaStreamTrack`: identity, kind, `enabled` flag, and whether `stop()` was called. -/
structure MediaTrack where
  tid : Nat
  kind : TrackKind
  enabled : Bool
  stopped : Bool
deriving DecidableEq, Repr

/-- The `type` field of an `RTCSessionDescription`. -/
inductive DescKind
  | offer
  | answer
deriving DecidableEq, Repr

/-- An `RTCSessionDescription`: opaque sdp blob plus its `type`. -/
structure Description where
  sdp : Nat
  kind : DescKind
deriving DecidableEq, Repr

/-- An `RTCRtpSender` slot of a peer connection; `track` is its current outbound track. -/
structure Sender where
  track : Option MediaTrack
deriving DecidableEq, Repr

/-- Observable state of an `RTCPeerConnection`: senders added via `addTrack`,
the committed local/remote descriptions, the ICE candidates applied via
`addIceCandidate` (opaque blobs), and whether `close()` was called. -/
structure PeerConnection where
  senders : List Sender
  localDesc : Option Description
  remoteDesc : Option Description
  appliedCandidates : List Nat
  closed : Bool
deriving DecidableEq, Repr

/-- The `Participant` interface of the source: id, accumulated remote stream,
peer connection, and per-participant camera/mic flags.  `isOfferer` is a ghost
field recording the role the session was created with. -/
structure Participant where
  id : String
  stream : List MediaTrack
  peerConnection : PeerConnection
  cameraOn : Bool
  micOn : Bool
  isOfferer : Bool
deriving DecidableEq, Repr

/-- Body of an addressed `signal` envelope: `{sdp: ...}` or `{candidate: ...}`. -/
inductive SigBody
  | sdp (d : Description)
  | candidate (c : Nat)
deriving DecidableEq, Repr

/-- An outbound `socket.emit('signal', {to, signal})` payload; `toId` is the
source's `to` field (renamed, `to` being reserved in Lean). -/
structure SignalMsg where
  toId : String
  signal : SigBody
deriving DecidableEq, Repr

/-- The component state the claims are about: `localStream` (list of local
tracks), the `participants` map, and the UI flags `cameraOn` / `micOn`. -/
structure VideoRoom where
  localStream : List MediaTrack
  participants : List (String × Participant)
  cameraOn : Bool
  micOn : Bool
deriving DecidableEq, Repr

/-- Environment supplying the sdp blobs that `createOffer` / `createAnswer`
would generate (opaque to the component). -/
structure Env where
  offerSdp : Nat
  answerSdp : Nat
deriving DecidableEq, Repr

/-- Failure injection for the fallible connection-layer calls inside
`handleSignal`; `behOk` is the all-successful behaviour. -/
structure ConnBehavior where
  setRemoteFails : Bool
  createAnswerFails : Bool
  setLocalFails : Bool
  addCandidateFails : Bool
deriving DecidableEq, Repr

/-- The connection layer behaviour in which every call succeeds. -/
def behOk : ConnBehavior := ⟨false, false, false, false⟩

/-- `participants.get(k)` on the association-list map. -/
def getP : List (String × Participant) → String → Option Participant
  | [], _ => none
  | (k1, v) :: rest, k => if k1 = k then some v else getP rest k

/-- `participants.set(k, v)`: replace the binding if present, else append. -/
def setP : List (String × Participant) → String → Participant → List (String × Participant)
  | [], k, v => [(k, v)]
  | (k1, v1) :: rest, k, v =>
    if k1 = k then (k, v) :: rest else (k1, v1) :: setP rest k v

/-- `participants.delete(k)`. -/
def delP : List (String × Participant) → String → List (String × Participant)
  | [], _ => []
  | (k1, v1) :: rest, k =>
    if k1 = k then delP rest k else (k1, v1) :: delP rest k

/-- Update every value of the map in place, keeping keys (a `participants.forEach`
that mutates each participant). -/
def mapValues (f : Participant → Participant) :
    List (String × Participant) → List (String × Participant)
  | [] => []
  | (k, v) :: rest => (k, f v) :: mapValues f rest

/-- The negotiation state of §4.3 of the spec, read off the connection's
committed descriptions: it is not stored by the source, which relies on the
connection layer's implicit signaling state. -/
inductive NegState
  | New
  | OfferSent
  | OfferReceived
  | Stable
  | Closed
deriving DecidableEq, Repr

/-- View of a connection's negotiation state (§4.3): `Closed` once `close()`
ran, otherwise determined by which descriptions have been committed. -/
def negotiationState (pc : PeerConnection) : NegState :=
  if pc.closed then NegState.Closed
  else
    match pc.localDesc, pc.remoteDesc with
    | none, none => NegState.New
    | some _, none => NegState.OfferSent
    | none, some _ => NegState.OfferReceived
    | some _, some _ => NegState.Stable

/-- `new RTCPeerConnection(...)` followed by `localStream.getTracks().forEach(t => pc.addTrack(t, ...))`:
one sender per current local track, nothing committed, nothing applied, open. -/
def newPC (localTracks : List MediaTrack) : PeerConnection :=
  ⟨localTracks.map (fun t => ⟨some t⟩), none, none, [], false⟩

/-- `createPeerConnection(userId, isOfferer)`.  Builds a connection over the
current local stream, stores the participant in the map, and — in the offerer
case — commits the generated offer as the local description and emits it as a
`signal` payload (the async `createOffer().then(...)` is folded to its eventual
effect).  Returns the updated component state, the participant (the source
returns it too), and the emitted payloads. -/
def createPeerConnection (env : Env) (vr : VideoRoom) (userId : String) (isOfferer : Bool) :
    VideoRoom × Participant × List SignalMsg :=
  let pc := newPC vr.localStream
  if isOfferer then
    let offer : Description := ⟨env.offerSdp, DescKind.offer⟩
    let part : Participant := ⟨userId, [], { pc with localDesc := some offer }, true, true, true⟩
    ({ vr with participants := setP vr.participants userId part },
     part, [⟨userId, SigBody.sdp offer⟩])
  else
    let part : Participant := ⟨userId, [], pc, true, true, false⟩
    ({ vr with participants := setP vr.participants userId part }, part, [])

/-- The dispatch part of `handleSignal`, operating on the participant looked up
(or just created) for the sender: the `try { if (signal.sdp) ... else if
(signal.candidate) ... } catch { log }` block.  Returns the new state, the
emitted payloads, and whether an error was caught and logged. -/
def dispatchSignal (env : Env) (beh : ConnBehavior) (vr : VideoRoom) (fromId : String)
    (p : Participant) (body : SigBody) : VideoRoom × List SignalMsg × Bool :=
  match body with
  | SigBody.sdp d =>
    if beh.setRemoteFails then (vr, [], true)
    else
      let p2 := { p with peerConnection := { p.peerConnection with remoteDesc := some d } }
      let vr2 := { vr with participants := setP vr.participants fromId p2 }
      if d.kind = DescKind.offer then
        if beh.createAnswerFails then (vr2, [], true)
        else if beh.setLocalFails then (vr2, [], true)
        else
          let ans : Description := ⟨env.answerSdp, DescKind.answer⟩
          let p3 := { p2 with peerConnection := { p2.peerConnection with localDesc := some ans } }
          ({ vr2 with participants := setP vr2.participants fromId p3 },
           [⟨fromId, SigBody.sdp ans⟩], false)
      else (vr2, [], false)
  | SigBody.candidate c =>
    if beh.addCandidateFails then (vr, [], true)
    else
      let p2 := { p with peerConnection :=
        { p.peerConnection with
            appliedCandidates := p.peerConnection.appliedCandidates ++ [c] } }
      ({ vr with participants := setP vr.participants fromId p2 }, [], false)

/-- `handleSignal(data)`: look up the sender's participant, creating a
non-offerer session when unknown, then dispatch the payload. -/
def handleSignal (env : Env) (beh : ConnBehavior) (vr : VideoRoom) (fromId : String)
    (body : SigBody) : VideoRoom × List SignalMsg × Bool :=
  match getP vr.participants fromId with
  | some p => dispatchSignal env beh vr fromId p body
  | none =>
    let r := createPeerConnection env vr fromId false
    let r2 := dispatchSignal env beh r.1 fromId r.2.1 body
    (r2.1, r.2.2 ++ r2.2.1, r2.2.2)

/-- The `existing-users` handler: for each listed id without a session, create
one with `isOfferer = true`. -/
def onExistingUsers (env : Env) (vr : VideoRoom) : List String → VideoRoom × List SignalMsg
  | [] => (vr, [])
  | u :: rest =>
    let r1 :=
      match getP vr.participants u with
      | some _ => (vr, ([] : List SignalMsg))
      | none =>
        let r := createPeerConnection env vr u true
        (r.1, r.2.2)
    let r2 := onExistingUsers env r1.1 rest
    (r2.1, r1.2 ++ r2.2)

/-- The `user-joined` handler: create an `isOfferer = false` session unless one
already exists. -/
def onUserJoined (env : Env) (vr : VideoRoom) (userId : String) : VideoRoom × List SignalMsg :=
  match getP vr.participants userId with
  | some _ => (vr, [])
  | none =>
    let r := createPeerConnection env vr userId false
    (r.1, r.2.2)

/-- `track.stop()`. -/
def stopTrack (t : MediaTrack) : MediaTrack := { t with stopped := true }

/-- The teardown applied to a found participant in `removeParticipant`:
stop every accumulated remote track and close the connection. -/
def closeSession (p : Participant) : Participant :=
  { p with
      stream := p.stream.map stopTrack,
      peerConnection := { p.peerConnection with closed := true } }

/-- `removeParticipant(userId)`: if a session exists, stop its remote tracks,
close its connection and delete it from the map; otherwise do nothing.  The
second component records the final state of the destroyed session's resources
(in the source these are effects on the removed objects). -/
def removeParticipant (vr : VideoRoom) (userId : String) : VideoRoom × Option Participant :=
  match getP vr.participants userId with
  | some p =>
    ({ vr with participants := delP vr.participants userId }, some (closeSession p))
  | none => (vr, none)

/-- The state effect of `joinRoom(roomId)`: the socket creation, event
subscriptions and `join-room` emit are external; on the component state it runs
`setupLocalMedia`, which either installs the granted tracks and sets both flags
(grant case) or falls back to an empty stream with both flags off (denial
case).  The `participants` map is not touched. -/
def joinRoom (media : Option (List MediaTrack)) (vr : VideoRoom) : VideoRoom :=
  match media with
  | some ts => { vr with localStream := ts, cameraOn := true, micOn := true }
  | none => { vr with localStream := [], cameraOn := false, micOn := false }

/-- `getVideoTracks()[0]` / `getAudioTracks()[0]`: first track of the kind. -/
def firstTrackOfKind (k : TrackKind) : List MediaTrack → Option MediaTrack
  | [] => none
  | t :: rest => if t.kind = k then some t else firstTrackOfKind k rest

/-- `track.enabled = !track.enabled` on the first track of the kind. -/
def toggleFirstOfKind (k : TrackKind) : List MediaTrack → List MediaTrack
  | [] => []
  | t :: rest =>
    if t.kind = k then { t with enabled := !t.enabled } :: rest
    else t :: toggleFirstOfKind k rest

/-- The predicate of `getSenders().find(s => s.track?.kind === k)`. -/
def senderHasKind (k : TrackKind) (s : Sender) : Bool :=
  match s.track with
  | some t => decide (t.kind = k)
  | none => false

/-- `const sender = getSenders().find(...); if (sender) sender.replaceTrack(newTrack)`:
replace the track of the first sender currently carrying a track of kind `k`;
if none matches, leave the senders unchanged. -/
def replaceFirstSenderOfKind (k : TrackKind) (newTrack : MediaTrack) : List Sender → List Sender
  | [] => []
  | s :: rest =>
    if senderHasKind k s then { s with track := some newTrack } :: rest
    else s :: replaceFirstSenderOfKind k newTrack rest

/-- The `participants.forEach(p => { ... replaceTrack ... })` fan-out. -/
def replaceTrackAllSessions (k : TrackKind) (newTrack : MediaTrack)
    (m : List (String × Participant)) : List (String × Participant) :=
  mapValues (fun p =>
    { p with peerConnection :=
        { p.peerConnection with
            senders := replaceFirstSenderOfKind k newTrack p.peerConnection.senders } }) m

/-- `toggleCamera()`: if a local video track exists, negate its `enabled` flag
and mirror it into `cameraOn`; otherwise acquire a new video track (`grant`,
`none` when `getUserMedia` rejects — error logged, state unchanged), append it
to the local stream and fan the replacement out to every session.  Emits no
signaling payloads. -/
def toggleCamera (grant : Option MediaTrack) (vr : VideoRoom) : VideoRoom × List SignalMsg :=
  match firstTrackOfKind TrackKind.video vr.localStream with
  | some t =>
    ({ vr with
        localStream := toggleFirstOfKind TrackKind.video vr.localStream,
        cameraOn := !t.enabled }, [])
  | none =>
    match grant with
    | some track =>
      ({ vr with
          localStream := vr.localStream ++ [track],
          participants := replaceTrackAllSessions TrackKind.video track vr.participants,
          cameraOn := true }, [])
    | none => (vr, [])

/-- `toggleMic()`: the audio analogue of `toggleCamera`. -/
def toggleMic (grant : Option MediaTrack) (vr : VideoRoom) : VideoRoom × List SignalMsg :=
  match firstTrackOfKind TrackKind.audio vr.localStream with
  | some t =>
    ({ vr with
        localStream := toggleFirstOfKind TrackKind.audio vr.localStream,
        micOn := !t.enabled }, [])
  | none =>
    match grant with
    | some track =>
      ({ vr with
          localStream := vr.localStream ++ [track],
          participants := replaceTrackAllSessions TrackKind.audio track vr.participants,
          micOn := true }, [])
    | none => (vr, [])

/-- `shareScreen()`: with a granted display track, replace the outbound video
track of every session; on rejection, state unchanged (error logged).  The
local preview element is UI and out of scope. -/
def shareScreen (grant : Option MediaTrack) (vr : VideoRoom) : VideoRoom × List SignalMsg :=
  match grant with
  | some videoTrack =>
    ({ vr with participants := replaceTrackAllSessions TrackKind.video videoTrack vr.participants }, [])
  | none => (vr, [])

/-! ### Map lemmas -/

theorem getP_setP_self (m : List (String × Participant)) (k : String) (v : Participant) :
    getP (setP m k v) k = some v := by
  induction m with
  | nil => simp [setP, getP]
  | cons e rest ih =>
    by_cases h : e.1 = k
    · simp [setP, h, getP]
    · simp [setP, h, getP, ih]

theorem getP_setP_other (m : List (String × Participant)) (k k' : String) (v : Participant)
    (h : k' ≠ k) : getP (setP m k v) k' = getP m k' := by
  have hk : k ≠ k' := Ne.symm h
  induction m with
  | nil => simp [setP, getP, hk]
  | cons e rest ih =>
    by_cases h1 : e.1 = k
    · have h2 : e.1 ≠ k' := by rw [h1]; exact hk
      simp [setP, getP, h1, hk, h2]
    · by_cases h2 : e.1 = k'
      · simp [setP, getP, h1, h2, h]
      · simp [setP, getP, h1, h2, ih]

theorem getP_delP_self (m : List (String × Participant)) (k : String) :
    getP (delP m k) k = none := by
  induction m with
  | nil => simp [delP, getP]
  | cons e rest ih =>
    by_cases h : e.1 = k
    · simp [delP, h, ih]
    · simp [delP, getP, h, ih]

theorem getP_delP_other (m : List (String × Participant)) (k k' : String)
    (h : k' ≠ k) : getP (delP m k) k' = getP m k' := by
  induction m with
  | nil => simp [delP]
  | cons e rest ih =>
    by_cases h1 : e.1 = k
    · have h2 : e.1 ≠ k' := by rw [h1]; exact Ne.symm h
      simp [delP, getP, h1, h2, Ne.symm h, ih]
    · simp [delP, getP, h1, ih]

theorem getP_mapValues (f : Participant → Participant) (m : List (String × Participant))
    (k : String) : getP (mapValues f m) k = (getP m k).map f := by
  induction m with
  | nil => simp [mapValues, getP]
  | cons e rest ih =>
    by_cases h : e.1 = k
    · simp [mapValues, getP, h]
    · simp [mapValues, getP, h, ih]

/-! ### Negotiation-state lemmas -/

theorem negotiationState_offerSent (pc : PeerConnection)
    (h : negotiationState pc = NegState.OfferSent) :
    pc.closed = false ∧ (∃ d, pc.localDesc = some d) ∧ pc.remoteDesc = none := by
  rcases pc with ⟨ss, l, r, ac, c⟩
  cases c <;> cases l <;> cases r <;> simp_all [negotiationState]

theorem negotiationState_stable (pc : PeerConnection)
    (hc : pc.closed = false) (hl : ∃ d, pc.localDesc = some d)
    (hr : ∃ d, pc.remoteDesc = some d) :
    negotiationState pc = NegState.Stable := by
  rcases pc with ⟨ss, l, r, ac, c⟩
  rcases hl with ⟨dl, hl⟩
  rcases hr with ⟨dr, hr⟩
  simp_all [negotiationState]

/-! ### Sender-list lemmas -/

/-- Number of senders currently carrying a track of kind `k`. -/
def countSendersOfKind (k : TrackKind) (ss : List Sender) : Nat :=
  (ss.filter (senderHasKind k)).length

theorem replaceFirst_length (k : TrackKind) (t : MediaTrack) :
    ∀ ss : List Sender, (replaceFirstSenderOfKind k t ss).length = ss.length := by
  intro ss
  induction ss with
  | nil => simp [replaceFirstSenderOfKind]
  | cons s rest ih =>
    by_cases h : senderHasKind k s
    · simp [replaceFirstSenderOfKind, h]
    · simp [replaceFirstSenderOfKind, h, ih]

theorem replaceFirst_no_match (k : TrackKind) (t : MediaTrack) :
    ∀ ss : List Sender, (∀ s ∈ ss, senderHasKind k s = false) →
      replaceFirstSenderOfKind k t ss = ss := by
  intro ss
  induction ss with
  | nil => intro _; simp [replaceFirstSenderOfKind]
  | cons s rest ih =>
    intro h
    have hs : senderHasKind k s = false := h s (by simp)
    simp [replaceFirstSenderOfKind, hs]
    exact ih (fun u hu => h u (by simp [hu]))

theorem replaceFirst_unique_video (t : MediaTrack) (ht : t.kind = TrackKind.video) :
    ∀ ss : List Sender, countSendersOfKind TrackKind.video ss = 1 →
      countSendersOfKind TrackKind.video (replaceFirstSenderOfKind TrackKind.video t ss) = 1 ∧
      (∃ s ∈ replaceFirstSenderOfKind TrackKind.video t ss, s.track = some t) := by
  intro ss
  induction ss with
  | nil => intro h; simp [countSendersOfKind] at h
  | cons s rest ih =>
    intro h
    by_cases hs : senderHasKind TrackKind.video s
    · have hrest : countSendersOfKind TrackKind.video rest = 0 := by
        simpa [countSendersOfKind, List.filter_cons, hs] using h
      have hnew : senderHasKind TrackKind.video (⟨some t⟩ : Sender) = true := by
        simp [senderHasKind, ht]
      refine ⟨?_, ?_⟩
      · have : ({ s with track := some t } : Sender) = ⟨some t⟩ := rfl
        simp [replaceFirstSenderOfKind, hs, countSendersOfKind, List.filter_cons, this, hnew]
        simpa [countSendersOfKind] using hrest
      · exact ⟨⟨some t⟩, by simp [replaceFirstSenderOfKind, hs], rfl⟩
    · have hrest : countSendersOfKind TrackKind.video rest = 1 := by
        simpa [countSendersOfKind, List.filter_cons, hs] using h
      rcases ih hrest with ⟨h1, s2, hs2, hs2t⟩
      refine ⟨?_, ?_⟩
      · simpa [replaceFirstSenderOfKind, hs, countSendersOfKind, List.filter_cons] using h1
      · exact ⟨s2, by simp [replaceFirstSenderOfKind, hs, hs2], hs2t⟩

/-! ### Local-stream lemmas -/

theorem toggleFirst_filter_other (k k' : TrackKind) (h : k' ≠ k) :
    ∀ ts : List MediaTrack,
      (toggleFirstOfKind k ts).filter (fun u => decide (u.kind = k')) =
        ts.filter (fun u => decide (u.kind = k')) := by
  have hk2 : k ≠ k' := Ne.symm h
  intro ts
  induction ts with
  | nil => simp [toggleFirstOfKind]
  | cons t rest ih =>
    by_cases hk : t.kind = k
    · have hno : t.kind ≠ k' := by rw [hk]; exact hk2
      simp [toggleFirstOfKind, hk, List.filter_cons, hno, hk2]
    · by_cases hk' : t.kind = k'
      · simp [toggleFirstOfKind, hk, List.filter_cons, hk', h, ih]
      · simp [toggleFirstOfKind, hk, List.filter_cons, hk', ih]

theorem toggleFirst_decomp (k : TrackKind) :
    ∀ ts : List MediaTrack, ∀ t : MediaTrack, firstTrackOfKind k ts = some t →
      ∃ pre post, ts = pre ++ t :: post ∧ (∀ u ∈ pre, u.kind ≠ k) ∧
        toggleFirstOfKind k ts = pre ++ { t with enabled := !t.enabled } :: post := by
  intro ts
  induction ts with
  | nil => intro t h; simp [firstTrackOfKind] at h
  | cons a rest ih =>
    intro t h
    by_cases hk : a.kind = k
    · have ha : a = t := by simpa [firstTrackOfKind, hk] using h
      subst ha
      exact ⟨[], rest, by simp, by simp, by simp [toggleFirstOfKind, hk]⟩
    · have h' : firstTrackOfKind k rest = some t := by
        simpa [firstTrackOfKind, hk] using h
      rcases ih t h' with ⟨pre, post, h1, h2, h3⟩
      refine ⟨a :: pre, post, by simp [h1], ?_, by simp [toggleFirstOfKind, hk, h3]⟩
      intro u hu
      rcases List.mem_cons.mp hu with hu | hu
      · subst hu; exact hk
      · exact h2 u hu

/-! ### Concrete fixtures for counterexamples and witnesses -/

/-- A local video track. -/
def trackV : MediaTrack := ⟨0, TrackKind.video, true, false⟩

/-- A local audio track. -/
def trackA : MediaTrack := ⟨1, TrackKind.audio, true, false⟩

/-- A concrete environment of generated description blobs. -/
def envW : Env := ⟨7, 8⟩

/-- A freshly created non-offerer session for peer `"x"` over two local tracks. -/
def partW : Participant := ⟨"x", [], newPC [trackV, trackA], true, true, false⟩

/-- A component state holding the single session `partW`. -/
def vrW : VideoRoom := ⟨[trackV, trackA], [("x", partW)], true, true⟩

/-- A session whose connection has one sender slot carrying no track
(as created over an empty local stream plus a bare transceiver slot). -/
def partNoTrack : Participant :=
  ⟨"x", [], ⟨[⟨none⟩], none, none, [], false⟩, true, true, false⟩

/-- A component state with no local media and the single session `partNoTrack`. -/
def vrNoMedia : VideoRoom := ⟨[], [("x", partNoTrack)], false, false⟩

/-! ### C1 -/

/-- C1 refuted on the code: the session for `"x"` is in state `New` — no remote
description committed — yet an incoming remote ICE candidate is applied to the
connection immediately (`addIceCandidate` is called unconditionally); it is not
buffered for later application. -/
theorem C1_counterexample :
    negotiationState partW.peerConnection = NegState.New ∧
    partW.peerConnection.remoteDesc = none ∧
    (getP (handleSignal envW behOk vrW "x" (SigBody.candidate 5)).1.participants "x").map
        (fun q => q.peerConnection.appliedCandidates) = some [5] := by
  decide

/-- C1 (amended): for every session not in state `Closed`, a received remote
ICE candidate is applied to the connection immediately — regardless of whether
a remote description has been committed; there is no buffering, no emission,
and no error on the successful path. -/
theorem C1_amended_eager_candidate (env : Env) (vr : VideoRoom) (fromId : String)
    (p : Participant) (c : Nat)
    (hp : getP vr.participants fromId = some p)
    (hnc : negotiationState p.peerConnection ≠ NegState.Closed) :
    getP (handleSignal env behOk vr fromId (SigBody.candidate c)).1.participants fromId =
      some { p with peerConnection :=
        { p.peerConnection with
            appliedCandidates := p.peerConnection.appliedCandidates ++ [c] } } ∧
    (handleSignal env behOk vr fromId (SigBody.candidate c)).2.1 = [] ∧
    (handleSignal env behOk vr fromId (SigBody.candidate c)).2.2 = false := by
  simp [handleSignal, hp, dispatchSignal, behOk, getP_setP_self]

/-- Witness for the amended C1 at the concrete fixture. -/
theorem C1_witness :
    getP (handleSignal envW behOk vrW "x" (SigBody.candidate 5)).1.participants "x" =
      some { partW with peerConnection :=
        { partW.peerConnection with
            appliedCandidates := partW.peerConnection.appliedCandidates ++ [5] } } ∧
    (handleSignal envW behOk vrW "x" (SigBody.candidate 5)).2.1 = [] ∧
    (handleSignal envW behOk vrW "x" (SigBody.candidate 5)).2.2 = false :=
  C1_amended_eager_candidate envW vrW "x" partW 5 (by decide) (by decide)

/-! ### C6 -/

/-- C6 refuted on the code: `joinRoom` never touches the `participants` map,
so a session created before a re-join survives it. -/
theorem C6_counterexample :
    getP vrW.participants "x" = some partW ∧
    (joinRoom (some []) vrW).participants = vrW.participants ∧
    getP (joinRoom (some []) vrW).participants "x" = some partW := by
  decide

/-- C6 (amended): `joinRoom` leaves the session table unchanged — every
session created before the call remains in the table afterwards (it does not
clear the prior table). -/
theorem C6_join_preserves_sessions (media : Option (List MediaTrack)) (vr : VideoRoom) :
    (joinRoom media vr).participants = vr.participants := by
  cases media <;> rfl

/-! ### C2 -/

/-- C2: with a session present for the sender, (1) a remote description of
kind `offer` received in any pre-`Stable`, non-`Closed` state is committed as
the remote description, a generated `answer` is committed as the local
description, and exactly one outbound `answer` payload addressed to that peer
is emitted; (2) a remote description of kind `answer` received in state
`OfferSent` is committed as the remote description, zero payloads are emitted,
and the session's state becomes `Stable`. -/
theorem C2_offer_answer_flow (env : Env) (vr : VideoRoom) (fromId : String)
    (p : Participant) (d : Description)
    (hp : getP vr.participants fromId = some p) :
    (d.kind = DescKind.offer →
      negotiationState p.peerConnection ≠ NegState.Stable →
      negotiationState p.peerConnection ≠ NegState.Closed →
      ∃ ans : Description, ans.kind = DescKind.answer ∧
        getP (handleSignal env behOk vr fromId (SigBody.sdp d)).1.participants fromId =
          some { p with peerConnection :=
            { p.peerConnection with remoteDesc := some d, localDesc := some ans } } ∧
        (handleSignal env behOk vr fromId (SigBody.sdp d)).2.1 = [⟨fromId, SigBody.sdp ans⟩]) ∧
    (d.kind = DescKind.answer →
      negotiationState p.peerConnection = NegState.OfferSent →
      getP (handleSignal env behOk vr fromId (SigBody.sdp d)).1.participants fromId =
        some { p with peerConnection := { p.peerConnection with remoteDesc := some d } } ∧
      (handleSignal env behOk vr fromId (SigBody.sdp d)).2.1 = [] ∧
      negotiationState { p.peerConnection with remoteDesc := some d } = NegState.Stable) := by
  constructor
  · intro hk _ _
    refine ⟨⟨env.answerSdp, DescKind.answer⟩, rfl, ?_, ?_⟩ <;>
      simp [handleSignal, hp, dispatchSignal, behOk, hk, getP_setP_self]
  · intro hk hos
    have hne : d.kind ≠ DescKind.offer := by rw [hk]; intro hcontra; cases hcontra
    rcases negotiationState_offerSent p.peerConnection hos with ⟨hc, ⟨dl, hl⟩, hr⟩
    refine ⟨?_, ?_, ?_⟩
    · simp [handleSignal, hp, dispatchSignal, behOk, hne, getP_setP_self]
    · simp [handleSignal, hp, dispatchSignal, behOk, hne]
    · exact negotiationState_stable _ hc ⟨dl, hl⟩ ⟨d, rfl⟩

/-- Witness for C2 at the concrete fixture: an offer received in state `New`. -/
theorem C2_witness :
    ∃ ans : Description, ans.kind = DescKind.answer ∧
      getP (handleSignal envW behOk vrW "x"
          (SigBody.sdp ⟨3, DescKind.offer⟩)).1.participants "x" =
        some { partW with peerConnection :=
          { partW.peerConnection with
              remoteDesc := some ⟨3, DescKind.offer⟩, localDesc := some ans } } ∧
      (handleSignal envW behOk vrW "x" (SigBody.sdp ⟨3, DescKind.offer⟩)).2.1 =
        [⟨"x", SigBody.sdp ans⟩] :=
  (C2_offer_answer_flow envW vrW "x" partW ⟨3, DescKind.offer⟩ (by decide)).1 rfl
    (by decide) (by decide)

/-! ### C3 -/

/-- C3: the `existing-users` handler creates sessions — with `isOfferer = true`
— only for ids without an existing session, and the `user-joined` handler
creates an `isOfferer = false` session only when none exists; for a pair, the
side whose roster snapshot lists the other creates the Offerer session and
emits exactly one initial offer, while the other side's join handler creates
an Answerer session and emits nothing — never both sides offer. -/
theorem C3_role_assignment (env : Env) (vrA vrB : VideoRoom) (a b : String)
    (ha : getP vrA.participants b = none) (hb : getP vrB.participants a = none) :
    (∀ vr : VideoRoom, ∀ u : String, ∀ q : Participant,
      getP vr.participants u = some q → onExistingUsers env vr [u] = (vr, [])) ∧
    (∀ vr : VideoRoom, ∀ u : String, ∀ q : Participant,
      getP vr.participants u = some q → onUserJoined env vr u = (vr, [])) ∧
    (∃ pA : Participant,
      getP (onExistingUsers env vrA [b]).1.participants b = some pA ∧
      pA.isOfferer = true ∧
      (onExistingUsers env vrA [b]).2 =
        [⟨b, SigBody.sdp ⟨env.offerSdp, DescKind.offer⟩⟩]) ∧
    (∃ pB : Participant,
      getP (onUserJoined env vrB a).1.participants a = some pB ∧
      pB.isOfferer = false ∧
      (onUserJoined env vrB a).2 = []) := by
  refine ⟨?_, ?_, ?_, ?_⟩
  · intro vr u q h
    simp [onExistingUsers, h]
  · intro vr u q h
    simp [onUserJoined, h]
  · refine ⟨⟨b, [], { newPC vrA.localStream with
        localDesc := some ⟨env.offerSdp, DescKind.offer⟩ }, true, true, true⟩, ?_, rfl, ?_⟩ <;>
      simp [onExistingUsers, ha, createPeerConnection, getP_setP_self]
  · refine ⟨⟨a, [], newPC vrB.localStream, true, true, false⟩, ?_, rfl, ?_⟩ <;>
      simp [onUserJoined, hb, createPeerConnection, getP_setP_self]

/-- Witness for C3 with two concrete empty-table coordinators. -/
theorem C3_witness :
    (∃ pA : Participant,
      getP (onExistingUsers envW ⟨[], [], false, false⟩ ["b"]).1.participants "b" = some pA ∧
      pA.isOfferer = true ∧
      (onExistingUsers envW ⟨[], [], false, false⟩ ["b"]).2 =
        [⟨"b", SigBody.sdp ⟨envW.offerSdp, DescKind.offer⟩⟩]) ∧
    (∃ pB : Participant,
      getP (onUserJoined envW ⟨[], [], false, false⟩ "a").1.participants "a" = some pB ∧
      pB.isOfferer = false ∧
      (onUserJoined envW ⟨[], [], false, false⟩ "a").2 = []) := by
  have h := C3_role_assignment envW ⟨[], [], false, false⟩ ⟨[], [], false, false⟩ "a" "b"
    (by decide) (by decide)
  exact ⟨h.2.2.1, h.2.2.2⟩

/-! ### C4 -/

/-- C4: removing a participant that exists stops every track accumulated in
its remote stream, closes its peer connection, and deletes the id from the
table; removing an unknown id is a no-op (not an error); and a second removal
of the same id is always a no-op (idempotent). -/
theorem C4_remove_participant (vr : VideoRoom) (userId : String) :
    (∀ q : Participant, getP vr.participants userId = some q →
      (removeParticipant vr userId).2 = some (closeSession q) ∧
      (∀ t ∈ (closeSession q).stream, t.stopped = true) ∧
      (closeSession q).peerConnection.closed = true ∧
      getP (removeParticipant vr userId).1.participants userId = none) ∧
    (getP vr.participants userId = none → removeParticipant vr userId = (vr, none)) ∧
    removeParticipant (removeParticipant vr userId).1 userId =
      ((removeParticipant vr userId).1, none) := by
  refine ⟨?_, ?_, ?_⟩
  · intro q hq
    refine ⟨?_, ?_, rfl, ?_⟩
    · simp [removeParticipant, hq]
    · intro t ht
      rcases List.mem_map.mp (by simpa [closeSession] using ht) with ⟨u, _, hu⟩
      rw [← hu]; rfl
    · simp [removeParticipant, hq, getP_delP_self]
  · intro h
    simp [removeParticipant, h]
  · cases h : getP vr.participants userId with
    | some q =>
      have hgone : getP (removeParticipant vr userId).1.participants userId = none := by
        simp [removeParticipant, h, getP_delP_self]
      rw [removeParticipant, hgone]
    | none =>
      have h1 : (removeParticipant vr userId).1 = vr := by simp [removeParticipant, h]
      rw [h1, removeParticipant, h]

/-- Witness for C4 at the concrete fixture. -/
theorem C4_witness :
    (removeParticipant vrW "x").2 = some (closeSession partW) ∧
    (∀ t ∈ (closeSession partW).stream, t.stopped = true) ∧
    (closeSession partW).peerConnection.closed = true ∧
    getP (removeParticipant vrW "x").1.participants "x" = none :=
  (C4_remove_participant vrW "x").1 partW (by decide)

/-! ### C5 -/

/-- C5: an inbound signaling message whose sender has no session (including a
stale message after teardown) makes `handleSignal` create a fresh session for
that id with `isOfferer = false` (so no offer is emitted), dispatch the payload
to that session, and report no error. -/
theorem C5_unknown_sender (env : Env) (vr : VideoRoom) (fromId : String) (body : SigBody)
    (h : getP vr.participants fromId = none) :
    (handleSignal env behOk vr fromId body).2.2 = false ∧
    ∃ q : Participant,
      getP (handleSignal env behOk vr fromId body).1.participants fromId = some q ∧
      q.isOfferer = false ∧
      (∀ m ∈ (handleSignal env behOk vr fromId body).2.1,
        ∀ d : Description, m.signal = SigBody.sdp d → d.kind = DescKind.answer) ∧
      (match body with
       | SigBody.sdp d => q.peerConnection.remoteDesc = some d
       | SigBody.candidate c => q.peerConnection.appliedCandidates = [c]) := by
  cases body with
  | sdp d =>
    by_cases hk : d.kind = DescKind.offer
    · refine ⟨?_, ?_⟩
      · simp [handleSignal, h, createPeerConnection, dispatchSignal, behOk, hk]
      · refine ⟨⟨fromId, [], { newPC vr.localStream with
            remoteDesc := some d, localDesc := some ⟨env.answerSdp, DescKind.answer⟩ },
            true, true, false⟩, ?_, rfl, ?_, rfl⟩
        · simp [handleSignal, h, createPeerConnection, dispatchSignal, behOk, hk, getP_setP_self]
        · intro m hm d2 hd2
          simp [handleSignal, h, createPeerConnection, dispatchSignal, behOk, hk] at hm
          rw [hm] at hd2
          simp at hd2
          rw [← hd2]
    · refine ⟨?_, ?_⟩
      · simp [handleSignal, h, createPeerConnection, dispatchSignal, behOk, hk]
      · refine ⟨⟨fromId, [], { newPC vr.localStream with remoteDesc := some d },
            true, true, false⟩, ?_, rfl, ?_, rfl⟩
        · simp [handleSignal, h, createPeerConnection, dispatchSignal, behOk, hk, getP_setP_self]
        · intro m hm d2 hd2
          simp [handleSignal, h, createPeerConnection, dispatchSignal, behOk, hk] at hm
  | candidate c =>
    refine ⟨?_, ?_⟩
    · simp [handleSignal, h, createPeerConnection, dispatchSignal, behOk]
    · refine ⟨⟨fromId, [], { newPC vr.localStream with appliedCandidates := [c] },
          true, true, false⟩, ?_, rfl, ?_, rfl⟩
      · simp [handleSignal, h, createPeerConnection, dispatchSignal, behOk, newPC,
          getP_setP_self]
      · intro m hm d2 hd2
        simp [handleSignal, h, createPeerConnection, dispatchSignal, behOk] at hm

/-- Witness for C5: a stale candidate from unknown `"z"`. -/
theorem C5_witness :
    (handleSignal envW behOk vrW "z" (SigBody.candidate 9)).2.2 = false ∧
    ∃ q : Participant,
      getP (handleSignal envW behOk vrW "z" (SigBody.candidate 9)).1.participants "z" = some q ∧
      q.isOfferer = false ∧
      (∀ m ∈ (handleSignal envW behOk vrW "z" (SigBody.candidate 9)).2.1,
        ∀ d : Description, m.signal = SigBody.sdp d → d.kind = DescKind.answer) ∧
      q.peerConnection.appliedCandidates = [9] := by
  have h := C5_unknown_sender envW vrW "z" (SigBody.candidate 9) (by decide)
  exact h

/-! ### C7 -/

/-- C7 refuted on the code: the live session `partNoTrack` has no sender
carrying a video track, yet when a new video track becomes available the
fan-out leaves its senders unchanged — the new track is not added to that
session's connection (the fan-out only ever calls `replaceTrack` on an
existing matching sender, never `addTrack`). -/
theorem C7_counterexample :
    (∀ s ∈ partNoTrack.peerConnection.senders, senderHasKind TrackKind.video s = false) ∧
    firstTrackOfKind TrackKind.video vrNoMedia.localStream = none ∧
    (getP (toggleCamera (some trackV) vrNoMedia).1.participants "x").map
        (fun q => q.peerConnection.senders) = some partNoTrack.peerConnection.senders := by
  decide

/-- C7 (amended): when a new track of a kind becomes available (no local track
of that kind existed), the fan-out maps every live session to itself with the
track of its first sender of that kind replaced; a session with no sender
carrying a track of that kind is skipped unchanged (the new track is not
added to it), no session is removed, and no sender slot is created or
destroyed. -/
theorem C7_amended_fanout (vr : VideoRoom) (track : MediaTrack) :
    (firstTrackOfKind TrackKind.video vr.localStream = none →
      (∀ i : String, ∀ q : Participant, getP vr.participants i = some q →
        getP (toggleCamera (some track) vr).1.participants i =
          some { q with peerConnection :=
            { q.peerConnection with senders :=
                replaceFirstSenderOfKind TrackKind.video track q.peerConnection.senders } }) ∧
      (∀ i : String, getP vr.participants i = none →
        getP (toggleCamera (some track) vr).1.participants i = none)) ∧
    (firstTrackOfKind TrackKind.audio vr.localStream = none →
      (∀ i : String, ∀ q : Participant, getP vr.participants i = some q →
        getP (toggleMic (some track) vr).1.participants i =
          some { q with peerConnection :=
            { q.peerConnection with senders :=
                replaceFirstSenderOfKind TrackKind.audio track q.peerConnection.senders } }) ∧
      (∀ i : String, getP vr.participants i = none →
        getP (toggleMic (some track) vr).1.participants i = none)) ∧
    (∀ k : TrackKind, ∀ ss : List Sender, (∀ s ∈ ss, senderHasKind k s = false) →
      replaceFirstSenderOfKind k track ss = ss) ∧
    (∀ k : TrackKind, ∀ ss : List Sender,
      (replaceFirstSenderOfKind k track ss).length = ss.length) := by
  refine ⟨?_, ?_, ?_, ?_⟩
  · intro hv
    constructor
    · intro i q hq
      simp [toggleCamera, hv, replaceTrackAllSessions, getP_mapValues, hq]
    · intro i hq
      simp [toggleCamera, hv, replaceTrackAllSessions, getP_mapValues, hq]
  · intro hv
    constructor
    · intro i q hq
      simp [toggleMic, hv, replaceTrackAllSessions, getP_mapValues, hq]
    · intro i hq
      simp [toggleMic, hv, replaceTrackAllSessions, getP_mapValues, hq]
  · intro k ss hss
    exact replaceFirst_no_match k track ss hss
  · intro k ss
    exact replaceFirst_length k track ss

/-- Witness for the amended C7: a session with a video sender gets its track
replaced; the trackless session of the counterexample fixture is skipped. -/
theorem C7_witness :
    getP (toggleCamera (some trackV) vrNoMedia).1.participants "x" =
      some { partNoTrack with peerConnection :=
        { partNoTrack.peerConnection with senders :=
            (replaceFirstSenderOfKind TrackKind.video trackV
              partNoTrack.peerConnection.senders) } } :=
  ((C7_amended_fanout vrNoMedia trackV).1 (by decide)).1 "x" partNoTrack (by decide)

/-! ### C8 -/

/-- C8: when handling a negotiation payload for an existing session hits a
connection-layer rejection, the error is caught (reported as logged, flag
`true`): the session is still in the table with its connection's closed flag
unchanged, every other id's entry is exactly as before, and nothing is
emitted. -/
theorem C8_error_isolated (env : Env) (beh : ConnBehavior) (vr : VideoRoom)
    (fromId : String) (p : Participant) (body : SigBody)
    (hp : getP vr.participants fromId = some p)
    (herr : (handleSignal env beh vr fromId body).2.2 = true) :
    (∃ q : Participant,
      getP (handleSignal env beh vr fromId body).1.participants fromId = some q ∧
      q.peerConnection.closed = p.peerConnection.closed) ∧
    (∀ other : String, other ≠ fromId →
      getP (handleSignal env beh vr fromId body).1.participants other =
        getP vr.participants other) ∧
    (handleSignal env beh vr fromId body).2.1 = [] := by
  cases body with
  | sdp d =>
    by_cases h1 : beh.setRemoteFails
    · refine ⟨⟨p, ?_, rfl⟩, ?_, ?_⟩ <;>
        simp [handleSignal, hp, dispatchSignal, h1]
    · by_cases hk : d.kind = DescKind.offer
      · by_cases h2 : beh.createAnswerFails
        · refine ⟨⟨{ p with peerConnection :=
              { p.peerConnection with remoteDesc := some d } }, ?_, rfl⟩, ?_, ?_⟩
          · simp [handleSignal, hp, dispatchSignal, h1, hk, h2, getP_setP_self]
          · intro other hother
            simp [handleSignal, hp, dispatchSignal, h1, hk, h2,
              getP_setP_other _ _ _ _ hother]
          · simp [handleSignal, hp, dispatchSignal, h1, hk, h2]
        · by_cases h3 : beh.setLocalFails
          · refine ⟨⟨{ p with peerConnection :=
                { p.peerConnection with remoteDesc := some d } }, ?_, rfl⟩, ?_, ?_⟩
            · simp [handleSignal, hp, dispatchSignal, h1, hk, h2, h3, getP_setP_self]
            · intro other hother
              simp [handleSignal, hp, dispatchSignal, h1, hk, h2, h3,
                getP_setP_other _ _ _ _ hother]
            · simp [handleSignal, hp, dispatchSignal, h1, hk, h2, h3]
          · exfalso
            simp [handleSignal, hp, dispatchSignal, h1, hk, h2, h3] at herr
      · exfalso
        simp [handleSignal, hp, dispatchSignal, h1, hk] at herr
  | candidate c =>
    by_cases h4 : beh.addCandidateFails
    · refine ⟨⟨p, ?_, rfl⟩, ?_, ?_⟩ <;>
        simp [handleSignal, hp, dispatchSignal, h4]
    · exfalso
      simp [handleSignal, hp, dispatchSignal, h4] at herr

/-- Witness for C8: `setRemoteDescription` rejecting a malformed offer for the
fixture session leaves the table intact. -/
theorem C8_witness :
    (∃ q : Participant,
      getP (handleSignal envW ⟨true, false, false, false⟩ vrW "x"
          (SigBody.sdp ⟨3, DescKind.offer⟩)).1.participants "x" = some q ∧
      q.peerConnection.closed = partW.peerConnection.closed) ∧
    (∀ other : String, other ≠ "x" →
      getP (handleSignal envW ⟨true, false, false, false⟩ vrW "x"
          (SigBody.sdp ⟨3, DescKind.offer⟩)).1.participants other =
        getP vrW.participants other) ∧
    (handleSignal envW ⟨true, false, false, false⟩ vrW "x"
        (SigBody.sdp ⟨3, DescKind.offer⟩)).2.1 = [] :=
  C8_error_isolated envW ⟨true, false, false, false⟩ vrW "x" partW
    (SigBody.sdp ⟨3, DescKind.offer⟩) (by decide) (by decide)

/-! ### C9 -/

/-- C9: for a session with exactly one sender carrying a video track, running
the video-track replacement fan-out with `t1` and then with `t2` leaves the
session with exactly one sender carrying a video track, that sender carries
`t2`, and the number of sender slots is unchanged — no duplicate video sender
is created. -/
theorem C9_double_replace (vr : VideoRoom) (i : String) (p : Participant)
    (t1 t2 : MediaTrack)
    (h1 : t1.kind = TrackKind.video) (h2 : t2.kind = TrackKind.video)
    (hp : getP vr.participants i = some p)
    (hc : countSendersOfKind TrackKind.video p.peerConnection.senders = 1) :
    ∃ q : Participant,
      getP (shareScreen (some t2) (shareScreen (some t1) vr).1).1.participants i = some q ∧
      countSendersOfKind TrackKind.video q.peerConnection.senders = 1 ∧
      (∃ s ∈ q.peerConnection.senders, s.track = some t2) ∧
      q.peerConnection.senders.length = p.peerConnection.senders.length := by
  rcases replaceFirst_unique_video t1 h1 p.peerConnection.senders hc with ⟨hc1, _⟩
  rcases replaceFirst_unique_video t2 h2 _ hc1 with ⟨hc2, hmem2⟩
  refine ⟨{ p with peerConnection :=
      { p.peerConnection with senders :=
          (replaceFirstSenderOfKind TrackKind.video t2
            (replaceFirstSenderOfKind TrackKind.video t1 p.peerConnection.senders)) } },
    ?_, hc2, hmem2, ?_⟩
  · simp [shareScreen, replaceTrackAllSessions, getP_mapValues, hp]
  · rw [replaceFirst_length, replaceFirst_length]

/-- Witness for C9 at a concrete one-video-sender session. -/
theorem C9_witness :
    ∃ q : Participant,
      getP (shareScreen (some ⟨5, TrackKind.video, true, false⟩)
          (shareScreen (some ⟨4, TrackKind.video, true, false⟩) vrW).1).1.participants "x" =
        some q ∧
      countSendersOfKind TrackKind.video q.peerConnection.senders = 1 ∧
      (∃ s ∈ q.peerConnection.senders, s.track = some ⟨5, TrackKind.video, true, false⟩) ∧
      q.peerConnection.senders.length = partW.peerConnection.senders.length :=
  C9_double_replace vrW "x" partW ⟨4, TrackKind.video, true, false⟩
    ⟨5, TrackKind.video, true, false⟩ rfl rfl (by decide) (by decide)

/-! ### C10 -/

/-- C10: with a local video (resp. audio) track present, `toggleCamera`
(resp. `toggleMic`) only negates that track's `enabled` flag — the local
stream is the same list with exactly that one track's flag flipped — and sets
`cameraOn` (resp. `micOn`) to the new value; the session table (hence every
peer connection and its senders) is unchanged, the other kind's tracks and the
other flag are unchanged, and no signaling payload is emitted. -/
theorem C10_toggle_frame (vr : VideoRoom) (g : Option MediaTrack) (tv ta : MediaTrack) :
    (firstTrackOfKind TrackKind.video vr.localStream = some tv →
      (toggleCamera g vr).1.participants = vr.participants ∧
      (toggleCamera g vr).1.cameraOn = !tv.enabled ∧
      (toggleCamera g vr).1.micOn = vr.micOn ∧
      (toggleCamera g vr).2 = [] ∧
      (toggleCamera g vr).1.localStream.filter (fun u => decide (u.kind = TrackKind.audio)) =
        vr.localStream.filter (fun u => decide (u.kind = TrackKind.audio)) ∧
      (∃ pre post, vr.localStream = pre ++ tv :: post ∧
        (∀ u ∈ pre, u.kind ≠ TrackKind.video) ∧
        (toggleCamera g vr).1.localStream =
          pre ++ { tv with enabled := !tv.enabled } :: post)) ∧
    (firstTrackOfKind TrackKind.audio vr.localStream = some ta →
      (toggleMic g vr).1.participants = vr.participants ∧
      (toggleMic g vr).1.micOn = !ta.enabled ∧
      (toggleMic g vr).1.cameraOn = vr.cameraOn ∧
      (toggleMic g vr).2 = [] ∧
      (toggleMic g vr).1.localStream.filter (fun u => decide (u.kind = TrackKind.video)) =
        vr.localStream.filter (fun u => decide (u.kind = TrackKind.video)) ∧
      (∃ pre post, vr.localStream = pre ++ ta :: post ∧
        (∀ u ∈ pre, u.kind ≠ TrackKind.audio) ∧
        (toggleMic g vr).1.localStream =
          pre ++ { ta with enabled := !ta.enabled } :: post)) := by
  constructor
  · intro hv
    refine ⟨?_, ?_, ?_, ?_, ?_, ?_⟩
    · simp [toggleCamera, hv]
    · simp [toggleCamera, hv]
    · simp [toggleCamera, hv]
    · simp [toggleCamera, hv]
    · rw [show (toggleCamera g vr).1.localStream =
          toggleFirstOfKind TrackKind.video vr.localStream by simp [toggleCamera, hv]]
      exact toggleFirst_filter_other TrackKind.video TrackKind.audio (by decide) vr.localStream
    · rcases toggleFirst_decomp TrackKind.video vr.localStream tv hv with ⟨pre, post, e1, e2, e3⟩
      exact ⟨pre, post, e1, e2, by simp [toggleCamera, hv, e3]⟩
  · intro hv
    refine ⟨?_, ?_, ?_, ?_, ?_, ?_⟩
    · simp [toggleMic, hv]
    · simp [toggleMic, hv]
    · simp [toggleMic, hv]
    · simp [toggleMic, hv]
    · rw [show (toggleMic g vr).1.localStream =
          toggleFirstOfKind TrackKind.audio vr.localStream by simp [toggleMic, hv]]
      exact toggleFirst_filter_other TrackKind.audio TrackKind.video (by decide) vr.localStream
    · rcases toggleFirst_decomp TrackKind.audio vr.localStream ta hv with ⟨pre, post, e1, e2, e3⟩
      exact ⟨pre, post, e1, e2, by simp [toggleMic, hv, e3]⟩

/-- Witness for C10 at the fixture: both a video and an audio track present. -/
theorem C10_witness :
    (toggleCamera none vrW).1.participants = vrW.participants ∧
    (toggleCamera none vrW).1.cameraOn = !trackV.enabled ∧
    (toggleCamera none vrW).1.micOn = vrW.micOn ∧
    (toggleCamera none vrW).2 = [] ∧
    (toggleCamera none vrW).1.localStream.filter (fun u => decide (u.kind = TrackKind.audio)) =
      vrW.localStream.filter (fun u => decide (u.kind = TrackKind.audio)) ∧
    (∃ pre post, vrW.localStream = pre ++ trackV :: post ∧
      (∀ u ∈ pre, u.kind ≠ TrackKind.video) ∧
      (toggleCamera none vrW).1.localStream =
        pre ++ { trackV with enabled := !trackV.enabled } :: post) :=
  (C10_toggle_frame vrW none trackV trackA).1 (by decide)

end MeetX
